import Mathlib

/-!
Shallow embedding of `src/python/forecast.py` (FoodPredictor).

The script is a linear pipeline: read a CSV into a table, check that the
`date` and `rating` columns exist, short-circuit to `{"yhat": null}` on an
empty table, otherwise project/sort/parse/coerce/drop rows and hand the
prepared series to the external Prophet forecaster, mapping each failure
mode to a distinct exit code.

External collaborators (pandas cell parsing, the Prophet engine, the file
system) are not code of this repository; they are modelled as follows:
* the CSV read result is a parameter of type `Except String Table`
  (pandas `read_csv` either yields a table or raises);
* `parseDate` models `pd.to_datetime` on a single cell (ISO `YYYY-MM-DD`
  and US `M/D/YYYY` formats; anything else raises, which `to_datetime`
  with the default `errors='raise'` does);
* `toNumeric` models `pd.to_numeric(..., errors='coerce')` on a single
  cell (optional sign, decimal digits, optional fraction; failures become
  missing, never raise);
* the Prophet import and the configure/fit/predict/extract block are
  parameters of type `Except String Unit` and
  `List Obs → Except String Rat`.
-/

/-- A row of the loaded table, restricted to the contents of the two cells
the script ever reads: the `date` column and the `rating` column
(line 27 projects `df[['date', 'rating']]`). Cells are raw CSV text. -/
structure RawRow where
  date : String
  rating : String
deriving DecidableEq, Repr

/-- The table produced by `pd.read_csv`: its column names and its rows
(each row reduced to the two cells used by the script). -/
structure Table where
  cols : List String
  rows : List RawRow
deriving DecidableEq, Repr

/-- An observation of the prepared frame: after lines 29–31 the frame has
the raw `date` string, the raw `rating` string, the parsed datetime `ds`
and the coerced numeric `y`; rows with missing `y` are gone. `ds` is the
ordinal `y*10000 + m*100 + d`, strictly monotone in the calendar date. -/
structure Obs where
  date : String
  rating : String
  ds : Nat
  y : Rat
deriving DecidableEq, Repr

/-- Digit-string value: `some` exactly when the characters are a nonempty
run of decimal digits. -/
def digitsVal (cs : List Char) : Option Nat :=
  if cs ≠ [] ∧ cs.all (fun c => c.isDigit) then
    some (cs.foldl (fun n c => n * 10 + (c.toNat - 48)) 0)
  else none

/-- Split a character list on a separator character. -/
def splitSep (sep : Char) : List Char → List (List Char)
  | [] => [[]]
  | c :: cs =>
    let rest := splitSep sep cs
    if c = sep then [] :: rest
    else
      match rest with
      | [] => [[c]]
      | g :: gs => (c :: g) :: gs

/-- Calendar date as a sortable ordinal. -/
def dateOrdinal (y m d : Nat) : Nat := y * 10000 + m * 100 + d

/-- A plausible month/day pair. -/
def validMD (m d : Nat) : Bool := 1 ≤ m && m ≤ 12 && 1 ≤ d && d ≤ 31

/-- Models `pd.to_datetime` on one cell (line 29): parses ISO
`YYYY-MM-DD` or US `M/D/YYYY`; `none` models the exception raised on an
unparseable cell (`errors='raise'` is the pandas default). -/
def parseDate (s : String) : Option Nat :=
  match (splitSep '-' s.toList).map digitsVal with
  | [some y, some m, some d] =>
    if validMD m d then some (dateOrdinal y m d) else none
  | _ =>
    match (splitSep '/' s.toList).map digitsVal with
    | [some m, some d, some y] =>
      if validMD m d then some (dateOrdinal y m d) else none
    | _ => none

/-- Models `pd.to_numeric(..., errors='coerce')` on one cell (line 30):
an optional leading minus sign, an integer part, an optional dot and a
fraction part. A cell that fails to coerce becomes missing (`none`); this
function is total, coercion never raises. -/
def toNumeric (s : String) : Option Rat :=
  let core : Int → List Char → Option Rat := fun sgn cs =>
    match splitSep '.' cs with
    | [ip] => (digitsVal ip).map (fun n => mkRat (sgn * n) 1)
    | [ip, fp] => do
      let n ← digitsVal ip
      let f ← digitsVal fp
      pure (mkRat (sgn * (n * 10 ^ fp.length + f)) (10 ^ fp.length))
    | _ => none
  match s.toList with
  | '-' :: rest => core (-1) rest
  | cs => core 1 cs

/-- Lexicographic comparison of character lists by code point: how pandas
compares the string values of an object column in `sort_values`. -/
def lexLe : List Char → List Char → Bool
  | [], _ => true
  | _ :: _, [] => false
  | a :: as, b :: bs => if a < b then true else if a = b then lexLe as bs else false

/-- The `sort_values('date')` key order on rows: ascending by the raw
`date` string (the column still holds unparsed text at line 28). -/
def rowLe (a b : RawRow) : Prop := lexLe a.date.toList b.date.toList = true

instance : DecidableRel rowLe := fun _ _ =>
  inferInstanceAs (Decidable (_ = true))

/-- Line 28, `df.sort_values('date')`: stable sort of the rows by the raw
`date` string, ascending. -/
def sortRows (rows : List RawRow) : List RawRow :=
  List.insertionSort rowLe rows

/-- Line 29, `df['ds'] = pd.to_datetime(df['date'])`: parses the whole
date column; an unparseable cell raises (modelled as `.error`), and that
exception is not caught anywhere in `main`. -/
def parseDates : List RawRow → Except String (List (RawRow × Nat))
  | [] => .ok []
  | r :: rest =>
    match parseDate r.date with
    | none => .error ("Unknown datetime string format: " ++ r.date)
    | some d => (parseDates rest).map (fun l => (r, d) :: l)

/-- Lines 30–31, `df['y'] = pd.to_numeric(df['rating'], errors='coerce')`
then `df.dropna(subset=['y'])`: coerce every rating, keep exactly the rows
whose rating coerced. Total: no failure path. -/
def coerceDrop (l : List (RawRow × Nat)) : List Obs :=
  l.filterMap (fun p => (toNumeric p.1.rating).map
    (fun q => { date := p.1.date, rating := p.1.rating, ds := p.2, y := q }))

/-- Lines 27–31, the whole row-preparation step: project (already done by
the `RawRow` representation), sort by the raw date string, parse dates
(can raise), coerce ratings and drop missing ones. -/
def prepare (rows : List RawRow) : Except String (List Obs) :=
  (parseDates (sortRows rows)).map coerceDrop

/-- Which terminal state of `main` the process reached. -/
inductive TermState where
  | readFail | schemaFail | emptyNull | crash | importFail | fitFail | success
deriving DecidableEq, Repr

/-- Observable outcome of one invocation: stdout lines, stderr lines,
exit status, whether `from prophet import Prophet` was ever attempted,
and the series handed to `Prophet.fit` (as `df[['ds','y']]` rows) when
the forecaster was invoked. -/
structure Outcome where
  stdout : List String
  stderr : List String
  exitCode : Nat
  importAttempted : Bool
  fitInput : Option (List Obs)
  result : TermState
deriving DecidableEq, Repr

/-- Line 23, `json.dumps({"yhat": None})`. -/
def yhatNullLine : String := "\x7b\"yhat\": null\x7d"

/-- Line 45, `json.dumps({"yhat": float(yhat)})`, with the float rendered
as the decimal print of the model's rational value. -/
def yhatLine (q : Rat) : String := "\x7b\"yhat\": " ++ toString q ++ "\x7d"

/-- Python's behaviour at an uncaught exception: a traceback on stderr
and exit status 1. -/
def tracebackMsg (e : String) : String :=
  "Traceback (most recent call last): ValueError: " ++ e

/-- `main` of `src/python/forecast.py`, lines 12–48, as a function of the
CSV read result, the Prophet import result and the Prophet
configure/fit/predict/extract block. -/
def run (readResult : Except String Table) (importProphet : Except String Unit)
    (prophet : List Obs → Except String Rat) : Outcome :=
  match readResult with
  | .error e =>
    { stdout := [], stderr := ["csv-read-failed: " ++ e], exitCode := 2,
      importAttempted := false, fitInput := none, result := .readFail }
  | .ok df =>
    if "date" ∉ df.cols ∨ "rating" ∉ df.cols then
      { stdout := [], stderr := ["csv-missing-columns"], exitCode := 3,
        importAttempted := false, fitInput := none, result := .schemaFail }
    else if df.rows.length = 0 then
      { stdout := [yhatNullLine], stderr := [], exitCode := 0,
        importAttempted := false, fitInput := none, result := .emptyNull }
    else
      match prepare df.rows with
      | .error e =>
        { stdout := [], stderr := [tracebackMsg e], exitCode := 1,
          importAttempted := false, fitInput := none, result := .crash }
      | .ok series =>
        match importProphet with
        | .error e =>
          { stdout := [], stderr := ["prophet-import-failed: " ++ e], exitCode := 4,
            importAttempted := true, fitInput := none, result := .importFail }
        | .ok _ =>
          match prophet series with
          | .error e =>
            { stdout := [], stderr := ["prophet-fit-failed: " ++ e], exitCode := 5,
              importAttempted := true, fitInput := some series, result := .fitFail }
          | .ok yhat =>
            { stdout := [yhatLine yhat], stderr := [], exitCode := 0,
              importAttempted := true, fitInput := some series, result := .success }

/-- The key order of the prepared frame, still the raw-string order
carried over from `sort_values('date')`. -/
def obsLe (a b : Obs) : Prop := lexLe a.date.toList b.date.toList = true

theorem lexLe_total : ∀ as bs : List Char, lexLe as bs = true ∨ lexLe bs as = true
  | [], _ => Or.inl rfl
  | _ :: _, [] => Or.inr rfl
  | a :: as, b :: bs => by
    rcases lt_trichotomy a b with h | h | h
    · left; simp [lexLe, h]
    · subst h
      rcases lexLe_total as bs with ih | ih
      · left; simp [lexLe, lt_irrefl, ih]
      · right; simp [lexLe, lt_irrefl, ih]
    · right; simp [lexLe, h]

theorem lexLe_trans : ∀ as bs cs : List Char, lexLe as bs = true → lexLe bs cs = true →
    lexLe as cs = true
  | [], _, _, _, _ => rfl
  | _ :: _, [], _, h1, _ => by simp [lexLe] at h1
  | _ :: _, _ :: _, [], _, h2 => by simp [lexLe] at h2
  | a :: as, b :: bs, c :: cs, h1, h2 => by
    rcases lt_trichotomy a b with hab | hab | hab
    · rcases lt_trichotomy b c with hbc | hbc | hbc
      · simp [lexLe, lt_trans hab hbc]
      · subst hbc; simp [lexLe, hab]
      · simp [lexLe, hbc.asymm, hbc.ne'] at h2
    · subst hab
      simp only [lexLe, lt_irrefl, if_false, if_pos rfl] at h1
      rcases lt_trichotomy a c with hac | hac | hac
      · simp [lexLe, hac]
      · subst hac
        simp only [lexLe, lt_irrefl, if_false, if_pos rfl] at h2 ⊢
        exact lexLe_trans as bs cs h1 h2
      · simp [lexLe, hac.asymm, hac.ne'] at h2
    · simp [lexLe, hab.asymm, hab.ne'] at h1

theorem lexLe_antisymm : ∀ as bs : List Char, lexLe as bs = true → lexLe bs as = true →
    as = bs
  | [], [], _, _ => rfl
  | [], _ :: _, _, h2 => by simp [lexLe] at h2
  | _ :: _, [], h1, _ => by simp [lexLe] at h1
  | a :: as, b :: bs, h1, h2 => by
    rcases lt_trichotomy a b with hab | hab | hab
    · simp [lexLe, hab.asymm, hab.ne'] at h2
    · subst hab
      simp only [lexLe, lt_irrefl, if_false, if_pos rfl] at h1 h2
      rw [lexLe_antisymm as bs h1 h2]
    · simp [lexLe, hab.asymm, hab.ne'] at h1

theorem string_toList_inj {s t : String} (h : s.toList = t.toList) : s = t := by
  cases s; cases t; simp only [String.toList] at h; rw [h]

instance : IsTotal RawRow rowLe := ⟨fun _ _ => lexLe_total _ _⟩

instance : IsTrans RawRow rowLe := ⟨fun _ _ _ => lexLe_trans _ _ _⟩

/-- The strict companion of `rowLe`: strictly earlier raw date string. -/
def rowLt (a b : RawRow) : Prop := rowLe a b ∧ a.date ≠ b.date

instance : IsAntisymm RawRow rowLt :=
  ⟨fun _ _ h1 h2 =>
    absurd (string_toList_inj (lexLe_antisymm _ _ h1.1 h2.1)) h1.2⟩

theorem sorted_rowLt_of_nodup {l : List RawRow} (hs : l.Sorted rowLe)
    (hn : (l.map RawRow.date).Nodup) : l.Sorted rowLt := by
  have hp : l.Pairwise (fun a b : RawRow => a.date ≠ b.date) :=
    List.pairwise_map.mp hn
  exact (hs.and hp).imp (fun h => ⟨h.1, h.2⟩)

/-- Sorting is insensitive to a permutation of the input as soon as the
date keys are pairwise distinct. -/
theorem sortRows_eq_of_perm {rows1 rows2 : List RawRow} (hp : List.Perm rows1 rows2)
    (hn : (rows1.map RawRow.date).Nodup) : sortRows rows1 = sortRows rows2 := by
  have hperm : List.Perm (sortRows rows1) (sortRows rows2) :=
    (List.perm_insertionSort rowLe rows1).trans
      (hp.trans (List.perm_insertionSort rowLe rows2).symm)
  have hn1 : ((sortRows rows1).map RawRow.date).Nodup :=
    (((List.perm_insertionSort rowLe rows1).map RawRow.date).nodup_iff).mpr hn
  have hn2 : ((sortRows rows2).map RawRow.date).Nodup :=
    ((hperm.map RawRow.date).nodup_iff).mp hn1
  exact List.eq_of_perm_of_sorted hperm
    (sorted_rowLt_of_nodup (List.sorted_insertionSort rowLe rows1) hn1)
    (sorted_rowLt_of_nodup (List.sorted_insertionSort rowLe rows2) hn2)

/-- When every date cell parses, `pd.to_datetime` does not raise: the
parse step succeeds and keeps the rows in order, each paired with its
parsed date. -/
theorem parseDates_ok : ∀ {l : List RawRow}, (∀ r ∈ l, (parseDate r.date).isSome) →
    ∃ l', parseDates l = .ok l' ∧ l'.map Prod.fst = l ∧
      ∀ p ∈ l', parseDate p.1.date = some p.2 := by
  intro l
  induction l with
  | nil => exact fun _ => ⟨[], rfl, rfl, by simp⟩
  | cons r rest ih =>
    intro h
    obtain ⟨d, hd⟩ := Option.isSome_iff_exists.mp (h r (List.mem_cons_self r rest))
    obtain ⟨l', hl', hmap, hall⟩ := ih (fun x hx => h x (List.mem_cons_of_mem _ hx))
    refine ⟨(r, d) :: l', ?_, by simp [hmap], ?_⟩
    · simp [parseDates, hd, hl', Except.map]
    · intro p hp
      rcases List.mem_cons.mp hp with hp | hp
      · subst hp; exact hd
      · exact hall p hp

/-- Every observation surviving `dropna` carries a successfully coerced
rating, and it equals the stored `y`. -/
theorem coerceDrop_coerced {l' : List (RawRow × Nat)} :
    ∀ o ∈ coerceDrop l', toNumeric o.rating = some o.y := by
  intro o ho
  obtain ⟨p, _, hp⟩ := List.mem_filterMap.mp ho
  obtain ⟨q, hq, rfl⟩ := Option.map_eq_some'.mp hp
  exact hq

/-- The rows surviving `dropna`, viewed by their raw cells, are exactly
the rows of the parsed frame whose rating coerces. -/
theorem coerceDrop_cells : ∀ l' : List (RawRow × Nat),
    (coerceDrop l').map (fun o => (o.date, o.rating)) =
      ((l'.map Prod.fst).filter (fun r => (toNumeric r.rating).isSome)).map
        (fun r => (r.date, r.rating))
  | [] => rfl
  | p :: rest => by
    have ih := coerceDrop_cells rest
    cases hq : toNumeric p.1.rating with
    | none =>
      simp only [coerceDrop, List.filterMap_cons, hq, List.map_cons, List.filter_cons,
        Option.isSome_none, Bool.false_eq_true, if_false] at ih ⊢
      exact ih
    | some q =>
      simp only [coerceDrop, List.filterMap_cons, hq, Option.map_some', List.map_cons,
        List.filter_cons, Option.isSome_some, if_true] at ih ⊢
      rw [ih]

/-- If nothing coerces, `dropna` empties the frame. -/
theorem coerceDrop_eq_nil {l' : List (RawRow × Nat)}
    (h : ∀ p ∈ l', toNumeric p.1.rating = none) : coerceDrop l' = [] := by
  refine List.filterMap_eq_nil_iff.mpr (fun p hp => ?_)
  rw [h p hp]; rfl

/-- The prepared frame keeps the raw-string sort order of line 28. -/
theorem coerceDrop_sorted {l' : List (RawRow × Nat)}
    (h : l'.Pairwise (fun p q => rowLe p.1 q.1)) :
    (coerceDrop l').Sorted obsLe := by
  induction l' with
  | nil => exact List.Pairwise.nil
  | cons p rest ih =>
    obtain ⟨h1, h2⟩ := List.pairwise_cons.mp h
    cases hq : toNumeric p.1.rating with
    | none => simpa [coerceDrop, List.filterMap_cons, hq] using ih h2
    | some q =>
      rw [coerceDrop, List.filterMap_cons, hq]
      refine List.Pairwise.cons (fun o ho => ?_) (ih h2)
      obtain ⟨p', hp', hsome⟩ := List.mem_filterMap.mp ho
      obtain ⟨q', _, rfl⟩ := Option.map_eq_some'.mp hsome
      exact h1 p' hp'

/-- With both columns present and at least one row, `main` reaches the
forecaster block: its outcome is decided by the import result and the
Prophet call on the prepared series. -/
theorem run_forecast_stage (df : Table) (io : Except String Unit)
    (p : List Obs → Except String Rat) (s : List Obs)
    (hd : "date" ∈ df.cols) (hr : "rating" ∈ df.cols) (hne : df.rows ≠ [])
    (hprep : prepare df.rows = .ok s) :
    run (.ok df) io p =
      match io with
      | .error e =>
        { stdout := [], stderr := ["prophet-import-failed: " ++ e], exitCode := 4,
          importAttempted := true, fitInput := none, result := .importFail }
      | .ok _ =>
        match p s with
        | .error e =>
          { stdout := [], stderr := ["prophet-fit-failed: " ++ e], exitCode := 5,
            importAttempted := true, fitInput := some s, result := .fitFail }
        | .ok v =>
          { stdout := [yhatLine v], stderr := [], exitCode := 0,
            importAttempted := true, fitInput := some s, result := .success } := by
  simp only [run]
  rw [if_neg (by simp [hd, hr]), if_neg (by simp [List.length_eq_zero, hne]), hprep]

/-- C5: for every input table with both required columns and zero data
rows, the process emits exactly `{"yhat": null}` as one line of JSON to
standard output and exits with status 0, without ever invoking the
forecaster and without attempting its import. -/
theorem claim5_empty_table_emits_null (t : Table) (io : Except String Unit)
    (p : List Obs → Except String Rat)
    (hd : "date" ∈ t.cols) (hr : "rating" ∈ t.cols) (hrows : t.rows = []) :
    run (.ok t) io p =
      { stdout := [yhatNullLine], stderr := [], exitCode := 0,
        importAttempted := false, fitInput := none, result := .emptyNull } := by
  simp only [run]
  rw [if_neg (by simp [hd, hr]), if_pos (by simp [hrows])]

theorem claim5_empty_table_emits_null_witness :
    run (.ok ⟨["date", "rating"], []⟩) (.ok ()) (fun _ => .error "x") =
      { stdout := [yhatNullLine], stderr := [], exitCode := 0,
        importAttempted := false, fitInput := none, result := .emptyNull } :=
  claim5_empty_table_emits_null _ _ _ (by decide) (by decide) rfl

/-- C6: for every successfully loaded table missing the date or the
rating column, the process writes the single stderr line
`csv-missing-columns` and exits with status 3; when both columns are
present this failure path is unreachable. -/
theorem claim6_missing_columns_exit3 (t : Table) (io : Except String Unit)
    (p : List Obs → Except String Rat) :
    (("date" ∉ t.cols ∨ "rating" ∉ t.cols) →
      run (.ok t) io p =
        { stdout := [], stderr := ["csv-missing-columns"], exitCode := 3,
          importAttempted := false, fitInput := none, result := .schemaFail }) ∧
    ("date" ∈ t.cols → "rating" ∈ t.cols →
      (run (.ok t) io p).exitCode ≠ 3 ∧ (run (.ok t) io p).result ≠ .schemaFail) := by
  constructor
  · intro h
    simp only [run]
    rw [if_pos h]
  · intro hd hr
    simp only [run]
    rw [if_neg (by simp [hd, hr])]
    by_cases hlen : t.rows.length = 0
    · rw [if_pos hlen]
      exact ⟨by decide, by decide⟩
    · rw [if_neg hlen]
      cases prepare t.rows with
      | error e => exact ⟨by simp, by simp⟩
      | ok s =>
        cases io with
        | error e => exact ⟨by simp, by simp⟩
        | ok u =>
          cases hps : p s with
          | error e => exact ⟨by simp [hps], by simp [hps]⟩
          | ok v => exact ⟨by simp [hps], by simp [hps]⟩

theorem claim6_missing_columns_exit3_witness :
    (run (.ok ⟨["date"], []⟩) (.ok ()) (fun _ => .error "x") =
      { stdout := [], stderr := ["csv-missing-columns"], exitCode := 3,
        importAttempted := false, fitInput := none, result := .schemaFail }) ∧
    ((run (.ok ⟨["date", "rating"], []⟩) (.ok ()) (fun _ => .error "x")).exitCode ≠ 3 ∧
      (run (.ok ⟨["date", "rating"], []⟩) (.ok ()) (fun _ => .error "x")).result ≠
        .schemaFail) :=
  ⟨(claim6_missing_columns_exit3 _ _ _).1 (by decide),
    (claim6_missing_columns_exit3 _ _ _).2 (by decide) (by decide)⟩

/-- C7: for every path whose file does not exist, is unreadable or is not
parseable (a raised read exception `e`), the process writes the one
stderr message `csv-read-failed: e` — which starts with
`csv-read-failed:` — and exits with status 2, writing nothing to
stdout. -/
theorem claim7_read_failure_exit2 (e : String) (io : Except String Unit)
    (p : List Obs → Except String Rat) :
    run (.error e) io p =
      { stdout := [], stderr := ["csv-read-failed: " ++ e], exitCode := 2,
        importAttempted := false, fitInput := none, result := .readFail } := rfl

/-- C10: for every input table with both required columns and zero data
rows, the process still succeeds with `{"yhat": null}` and exit status 0
when the forecasting dependency cannot be imported, because the import is
attempted only after the empty-table short-circuit returns. -/
theorem claim10_empty_table_ignores_import_failure (t : Table)
    (p : List Obs → Except String Rat) (e : String)
    (hd : "date" ∈ t.cols) (hr : "rating" ∈ t.cols) (hrows : t.rows = []) :
    run (.ok t) (.error e) p =
      { stdout := [yhatNullLine], stderr := [], exitCode := 0,
        importAttempted := false, fitInput := none, result := .emptyNull } := by
  simp only [run]
  rw [if_neg (by simp [hd, hr]), if_pos (by simp [hrows])]

theorem claim10_empty_table_ignores_import_failure_witness :
    run (.ok ⟨["date", "rating"], []⟩) (.error "No module named prophet")
        (fun _ => .error "x") =
      { stdout := [yhatNullLine], stderr := [], exitCode := 0,
        importAttempted := false, fitInput := none, result := .emptyNull } :=
  claim10_empty_table_ignores_import_failure _ _ _ (by decide) (by decide) rfl

/-- C8: for every prepared non-empty series, an exception in the Prophet
configure/fit/predict/extract block is caught and reported as one stderr
diagnostic containing the internal cause, with exit status 5; an import
failure instead exits with status 4; on success the process exits with
status 0. -/
theorem claim8_forecaster_error_mapping (t : Table) (s : List Obs)
    (prophet : List Obs → Except String Rat)
    (hd : "date" ∈ t.cols) (hr : "rating" ∈ t.cols) (hne : t.rows ≠ [])
    (hprep : prepare t.rows = .ok s) (_hs : s ≠ []) :
    (∀ e, run (.ok t) (.error e) prophet =
      { stdout := [], stderr := ["prophet-import-failed: " ++ e], exitCode := 4,
        importAttempted := true, fitInput := none, result := .importFail }) ∧
    (∀ e, prophet s = .error e → run (.ok t) (.ok ()) prophet =
      { stdout := [], stderr := ["prophet-fit-failed: " ++ e], exitCode := 5,
        importAttempted := true, fitInput := some s, result := .fitFail }) ∧
    (∀ v, prophet s = .ok v → run (.ok t) (.ok ()) prophet =
      { stdout := [yhatLine v], stderr := [], exitCode := 0,
        importAttempted := true, fitInput := some s, result := .success }) := by
  refine ⟨fun e => ?_, fun e he => ?_, fun v hv => ?_⟩
  · rw [run_forecast_stage t (.error e) prophet s hd hr hne hprep]
  · rw [run_forecast_stage t (.ok ()) prophet s hd hr hne hprep]
    simp [he]
  · rw [run_forecast_stage t (.ok ()) prophet s hd hr hne hprep]
    simp [hv]

theorem claim8_forecaster_error_mapping_witness :
    (∀ e, run (.ok ⟨["date", "rating"], [⟨"2024-01-01", "1"⟩]⟩) (.error e)
        (fun _ => .error "newton failed") =
      { stdout := [], stderr := ["prophet-import-failed: " ++ e], exitCode := 4,
        importAttempted := true, fitInput := none, result := .importFail }) ∧
    (∀ e, (fun _ : List Obs => (.error "newton failed" : Except String Rat))
        [⟨"2024-01-01", "1", 20240101, mkRat 1 1⟩] = .error e →
      run (.ok ⟨["date", "rating"], [⟨"2024-01-01", "1"⟩]⟩) (.ok ())
        (fun _ => .error "newton failed") =
      { stdout := [], stderr := ["prophet-fit-failed: " ++ e], exitCode := 5,
        importAttempted := true,
        fitInput := some [⟨"2024-01-01", "1", 20240101, mkRat 1 1⟩],
        result := .fitFail }) ∧
    (∀ v, (fun _ : List Obs => (.error "newton failed" : Except String Rat))
        [⟨"2024-01-01", "1", 20240101, mkRat 1 1⟩] = .ok v →
      run (.ok ⟨["date", "rating"], [⟨"2024-01-01", "1"⟩]⟩) (.ok ())
        (fun _ => .error "newton failed") =
      { stdout := [yhatLine v], stderr := [], exitCode := 0,
        importAttempted := true,
        fitInput := some [⟨"2024-01-01", "1", 20240101, mkRat 1 1⟩],
        result := .success }) :=
  claim8_forecaster_error_mapping ⟨["date", "rating"], [⟨"2024-01-01", "1"⟩]⟩
    [⟨"2024-01-01", "1", 20240101, mkRat 1 1⟩] (fun _ => .error "newton failed")
    (by decide) (by decide) (by decide) rfl (by decide)

/-- C1: a table with rows whose ratings all fail numeric coercion is not
short-circuited to the null result: the emptiness check ran before
coercion, so (with parseable dates and the forecaster importable) the
pipeline passes an empty fitting set on to the forecaster. -/
theorem claim1_all_invalid_ratings_reach_forecaster (t : Table)
    (p : List Obs → Except String Rat)
    (hd : "date" ∈ t.cols) (hr : "rating" ∈ t.cols) (hne : t.rows ≠ [])
    (hdates : ∀ r ∈ t.rows, (parseDate r.date).isSome)
    (hbad : ∀ r ∈ t.rows, toNumeric r.rating = none) :
    (run (.ok t) (.ok ()) p).result ≠ .emptyNull ∧
    (run (.ok t) (.ok ()) p).importAttempted = true ∧
    (run (.ok t) (.ok ()) p).fitInput = some [] := by
  have hsortmem : ∀ r ∈ sortRows t.rows, r ∈ t.rows :=
    fun r hr' => (List.perm_insertionSort rowLe t.rows).mem_iff.mp hr'
  obtain ⟨l', hl', hmap, -⟩ :=
    parseDates_ok (l := sortRows t.rows) (fun r hr' => hdates r (hsortmem r hr'))
  have hnil : coerceDrop l' = [] := by
    refine coerceDrop_eq_nil (fun q hq => ?_)
    have : q.1 ∈ l'.map Prod.fst := List.mem_map_of_mem Prod.fst hq
    rw [hmap] at this
    exact hbad q.1 (hsortmem q.1 this)
  have hprep : prepare t.rows = .ok [] := by
    rw [prepare, hl', Except.map, hnil]
  rw [run_forecast_stage t (.ok ()) p [] hd hr hne hprep]
  cases hps : p [] with
  | error e => exact ⟨by simp, rfl, rfl⟩
  | ok v => exact ⟨by simp, rfl, rfl⟩

theorem claim1_all_invalid_ratings_reach_forecaster_witness :
    (run (.ok ⟨["date", "rating"], [⟨"2024-01-01", "N/A"⟩]⟩) (.ok ())
        (fun _ => .error "empty fit")).result ≠ .emptyNull ∧
    (run (.ok ⟨["date", "rating"], [⟨"2024-01-01", "N/A"⟩]⟩) (.ok ())
        (fun _ => .error "empty fit")).importAttempted = true ∧
    (run (.ok ⟨["date", "rating"], [⟨"2024-01-01", "N/A"⟩]⟩) (.ok ())
        (fun _ => .error "empty fit")).fitInput = some [] :=
  claim1_all_invalid_ratings_reach_forecaster ⟨["date", "rating"], [⟨"2024-01-01", "N/A"⟩]⟩
    (fun _ => .error "empty fit") (by decide) (by decide) (by decide)
    (by decide) (by decide)

/-- Inverting a successful date parse: the parsed frame lists exactly the
input rows, in order. -/
theorem parseDates_map_fst : ∀ {l : List RawRow} {l' : List (RawRow × Nat)},
    parseDates l = .ok l' → l'.map Prod.fst = l
  | [], l', h => by
    simp only [parseDates] at h
    injection h with h
    rw [← h]
    rfl
  | r :: rest, l', h => by
    simp only [parseDates] at h
    cases hd : parseDate r.date with
    | none => rw [hd] at h; exact absurd h (by simp)
    | some d =>
      rw [hd] at h
      cases hrest : parseDates rest with
      | error e => rw [hrest] at h; exact absurd h (by simp [Except.map])
      | ok l'' =>
        rw [hrest] at h
        simp only [Except.map] at h
        injection h with h
        rw [← h]
        simp [parseDates_map_fst hrest]

/-- C2 counterexample: a row whose date cell does not parse makes the
row-preparation step raise (`pd.to_datetime` with the default
`errors='raise'`), and the uncaught exception terminates the process with
exit status 1 — the preparation step does have a failure path. -/
theorem claim2_counterexample_unparseable_date_crashes :
    prepare [⟨"notadate", "5"⟩] = .error "Unknown datetime string format: notadate" ∧
    (run (.ok ⟨["date", "rating"], [⟨"notadate", "5"⟩]⟩) (.ok ())
      (fun _ => .ok (mkRat 1 1))).exitCode = 1 ∧
    (run (.ok ⟨["date", "rating"], [⟨"notadate", "5"⟩]⟩) (.ok ())
      (fun _ => .ok (mkRat 1 1))).result = .crash :=
  ⟨rfl, by decide, by decide⟩

/-- C2 (amended): for every loaded table containing both required
columns, the row-preparation step is a deterministic transformation with
no failure path provided every date cell parses as a calendar date (the
input format of spec §6); rating contents can never make it raise, since
coercion failures become missing values. -/
theorem claim2_amended_prepare_total_on_parseable_dates (t : Table)
    (io : Except String Unit) (p : List Obs → Except String Rat)
    (hdates : ∀ r ∈ t.rows, (parseDate r.date).isSome) :
    (∃ s, prepare t.rows = .ok s) ∧ (run (.ok t) io p).result ≠ .crash := by
  have hsortmem : ∀ r ∈ sortRows t.rows, r ∈ t.rows :=
    fun r h => (List.perm_insertionSort rowLe t.rows).mem_iff.mp h
  obtain ⟨l', hl', -, -⟩ :=
    parseDates_ok (l := sortRows t.rows) (fun r h => hdates r (hsortmem r h))
  have hprep : prepare t.rows = .ok (coerceDrop l') := by
    rw [prepare, hl', Except.map]
  refine ⟨⟨_, hprep⟩, ?_⟩
  simp only [run]
  by_cases hcols : "date" ∉ t.cols ∨ "rating" ∉ t.cols
  · rw [if_pos hcols]; simp
  · rw [if_neg hcols]
    by_cases hlen : t.rows.length = 0
    · rw [if_pos hlen]; simp
    · rw [if_neg hlen, hprep]
      cases io with
      | error e => simp
      | ok u =>
        cases hps : p (coerceDrop l') with
        | error e => simp [hps]
        | ok v => simp [hps]

theorem claim2_amended_prepare_total_on_parseable_dates_witness :
    (∃ s, prepare (Table.mk ["date", "rating"] [⟨"2024-01-01", "5"⟩]).rows = .ok s) ∧
    (run (.ok ⟨["date", "rating"], [⟨"2024-01-01", "5"⟩]⟩) (.ok ())
      (fun _ => .ok (mkRat 1 1))).result ≠ .crash :=
  claim2_amended_prepare_total_on_parseable_dates
    ⟨["date", "rating"], [⟨"2024-01-01", "5"⟩]⟩ (.ok ()) (fun _ => .ok (mkRat 1 1))
    (by decide)

/-- C3 counterexample: the code sorts by the raw date string before
parsing, so with mixed date formats the prepared series is not ascending
by parsed calendar date: "10/1/2021" sorts before "9/1/2020" as a string
although it is the later calendar date. -/
theorem claim3_counterexample_sorted_by_string_not_date :
    (prepare [⟨"9/1/2020", "1"⟩, ⟨"10/1/2021", "2"⟩]).map (List.map Obs.ds) =
      .ok [20211001, 20200901] ∧
    ¬ List.Sorted (fun a b : Nat => a ≤ b) [20211001, 20200901] :=
  ⟨rfl, by decide⟩

/-- C3 (amended): every prepared series handed to the forecaster is
ordered ascending by the raw date string (the `sort_values('date')` key,
which agrees with calendar order only when the string order does, e.g.
for zero-padded ISO dates), with non-numeric ratings removed. -/
theorem claim3_amended_sorted_by_raw_date_string (rows : List RawRow) (s : List Obs)
    (h : prepare rows = .ok s) :
    s.Sorted obsLe ∧ ∀ o ∈ s, toNumeric o.rating = some o.y := by
  cases hl : parseDates (sortRows rows) with
  | error e => rw [prepare, hl] at h; exact absurd h (by simp [Except.map])
  | ok l' =>
    rw [prepare, hl] at h
    simp only [Except.map] at h
    injection h with h
    subst h
    refine ⟨?_, coerceDrop_coerced⟩
    refine coerceDrop_sorted ?_
    have hmap := parseDates_map_fst hl
    have hsorted : (sortRows rows).Sorted rowLe := List.sorted_insertionSort rowLe rows
    rw [← hmap] at hsorted
    exact List.pairwise_map.mp hsorted

theorem claim3_amended_sorted_by_raw_date_string_witness :
    List.Sorted obsLe [⟨"2024-01-01", "2", 20240101, mkRat 2 1⟩,
      ⟨"2024-01-02", "1", 20240102, mkRat 1 1⟩] ∧
    ∀ o ∈ [(⟨"2024-01-01", "2", 20240101, mkRat 2 1⟩ : Obs),
      ⟨"2024-01-02", "1", 20240102, mkRat 1 1⟩], toNumeric o.rating = some o.y :=
  claim3_amended_sorted_by_raw_date_string
    [⟨"2024-01-02", "1"⟩, ⟨"2024-01-01", "2"⟩] _ rfl

/-- C9: for every table with the required columns, at least one row and
parseable dates, rows whose rating fails numeric coercion are dropped
without raising and without aborting the pipeline, and exactly the rows
with a successfully coerced rating reach the forecaster. -/
theorem claim9_noncoercible_ratings_dropped (t : Table)
    (p : List Obs → Except String Rat)
    (hd : "date" ∈ t.cols) (hr : "rating" ∈ t.cols) (hne : t.rows ≠ [])
    (hdates : ∀ r ∈ t.rows, (parseDate r.date).isSome) :
    ∃ s, prepare t.rows = .ok s ∧
      (run (.ok t) (.ok ()) p).result ≠ .crash ∧
      (run (.ok t) (.ok ()) p).fitInput = some s ∧
      (∀ o ∈ s, toNumeric o.rating = some o.y) ∧
      List.Perm (s.map (fun o => (o.date, o.rating)))
        ((t.rows.filter (fun r => (toNumeric r.rating).isSome)).map
          (fun r => (r.date, r.rating))) := by
  have hsortmem : ∀ r ∈ sortRows t.rows, r ∈ t.rows :=
    fun r h => (List.perm_insertionSort rowLe t.rows).mem_iff.mp h
  obtain ⟨l', hl', hmap, -⟩ :=
    parseDates_ok (l := sortRows t.rows) (fun r h => hdates r (hsortmem r h))
  have hprep : prepare t.rows = .ok (coerceDrop l') := by
    rw [prepare, hl', Except.map]
  refine ⟨coerceDrop l', hprep, ?_, ?_, coerceDrop_coerced, ?_⟩
  · rw [run_forecast_stage t (.ok ()) p _ hd hr hne hprep]
    cases hps : p (coerceDrop l') with
    | error e => simp
    | ok v => simp
  · rw [run_forecast_stage t (.ok ()) p _ hd hr hne hprep]
    cases hps : p (coerceDrop l') with
    | error e => simp [hps]
    | ok v => simp [hps]
  · rw [coerceDrop_cells, hmap]
    exact ((List.perm_insertionSort rowLe t.rows).filter _).map _

theorem claim9_noncoercible_ratings_dropped_witness :
    ∃ s, prepare (Table.mk ["date", "rating"]
        [⟨"2024-01-02", "N/A"⟩, ⟨"2024-01-01", "3"⟩]).rows = .ok s ∧
      (run (.ok ⟨["date", "rating"], [⟨"2024-01-02", "N/A"⟩, ⟨"2024-01-01", "3"⟩]⟩)
        (.ok ()) (fun _ => .ok (mkRat 3 1))).result ≠ .crash ∧
      (run (.ok ⟨["date", "rating"], [⟨"2024-01-02", "N/A"⟩, ⟨"2024-01-01", "3"⟩]⟩)
        (.ok ()) (fun _ => .ok (mkRat 3 1))).fitInput = some s ∧
      (∀ o ∈ s, toNumeric o.rating = some o.y) ∧
      List.Perm (s.map (fun o => (o.date, o.rating)))
        (((Table.mk ["date", "rating"]
            [⟨"2024-01-02", "N/A"⟩, ⟨"2024-01-01", "3"⟩]).rows.filter
          (fun r => (toNumeric r.rating).isSome)).map (fun r => (r.date, r.rating))) :=
  claim9_noncoercible_ratings_dropped
    ⟨["date", "rating"], [⟨"2024-01-02", "N/A"⟩, ⟨"2024-01-01", "3"⟩]⟩
    (fun _ => .ok (mkRat 3 1)) (by decide) (by decide) (by decide) (by decide)

/-- C4 counterexample: with two rows sharing the same date string, the
stable sort preserves the input order of the tie, so swapping the two
rows yields a different prepared series — shuffling the rows is not
invariant as stated. -/
theorem claim4_counterexample_duplicate_dates :
    List.Perm [(⟨"2024-01-01", "2"⟩ : RawRow), ⟨"2024-01-01", "1"⟩]
      [⟨"2024-01-01", "1"⟩, ⟨"2024-01-01", "2"⟩] ∧
    prepare [⟨"2024-01-01", "2"⟩, ⟨"2024-01-01", "1"⟩] ≠
      prepare [⟨"2024-01-01", "1"⟩, ⟨"2024-01-01", "2"⟩] := by
  refine ⟨List.Perm.swap _ _ _, fun h => ?_⟩
  have h1 : (prepare [⟨"2024-01-01", "2"⟩, ⟨"2024-01-01", "1"⟩]).map (List.map Obs.y)
      = .ok [mkRat 2 1, mkRat 1 1] := rfl
  have h2 : (prepare [⟨"2024-01-01", "1"⟩, ⟨"2024-01-01", "2"⟩]).map (List.map Obs.y)
      = .ok [mkRat 1 1, mkRat 2 1] := rfl
  rw [h, h2] at h1
  rw [Except.ok.injEq] at h1
  exact absurd h1 (by decide)

/-- C4 (amended): when the date strings of the input rows are pairwise
distinct, preparing any permutation of the rows yields the identical
prepared series and the identical process outcome (hence identical
forecast output); with duplicate date keys only the tie order can
differ. -/
theorem claim4_amended_perm_invariance_distinct_dates (t : Table)
    (rows2 : List RawRow) (io : Except String Unit)
    (p : List Obs → Except String Rat)
    (hperm : List.Perm t.rows rows2) (hn : (t.rows.map RawRow.date).Nodup) :
    run (.ok ⟨t.cols, rows2⟩) io p = run (.ok t) io p := by
  obtain ⟨cols, rows1⟩ := t
  have hsort : sortRows rows2 = sortRows rows1 :=
    (sortRows_eq_of_perm hperm hn).symm
  have hprep : prepare rows2 = prepare rows1 := by
    rw [prepare, prepare, hsort]
  have hlen : rows2.length = rows1.length := hperm.length_eq.symm
  simp only [run, hprep, hlen]

theorem claim4_amended_perm_invariance_distinct_dates_witness :
    run (.ok ⟨["date", "rating"], [⟨"2024-01-01", "2"⟩, ⟨"2024-01-02", "1"⟩]⟩)
        (.ok ()) (fun _ => .error "e") =
      run (.ok ⟨["date", "rating"], [⟨"2024-01-02", "1"⟩, ⟨"2024-01-01", "2"⟩]⟩)
        (.ok ()) (fun _ => .error "e") :=
  claim4_amended_perm_invariance_distinct_dates
    ⟨["date", "rating"], [⟨"2024-01-02", "1"⟩, ⟨"2024-01-01", "2"⟩]⟩
    [⟨"2024-01-01", "2"⟩, ⟨"2024-01-02", "1"⟩] (.ok ()) (fun _ => .error "e")
    (List.Perm.swap _ _ _) (by decide)

